import Mathlib

/-!
Verification development for the eskom-calendar-api request-time data
pipeline.  The definitions below are a shallow embedding of the Rust
sources `src/structs.rs` and `src/versions.rs`:

* chrono's `NaiveTime` / `NaiveDate` / `NaiveDateTime` / `DateTime<FixedOffset>`
  are modelled by the `Time` / `Date` / `NaiveDateTime` / `DateTimeFixedOffset`
  structures (only the fields the code inspects are kept; `%H:%M` and
  `%Y-%m-%d` parsing is modelled by `parseTimeHM` / `parseDateYMD`);
* Rust `u8` fields are modelled as `Nat` (the CSV deserializer model
  `parseU8` enforces the 0..255 range exactly where serde would);
* panics (`assert!`, `unwrap`) are modelled as `Except.error` carrying the
  panic message, since a panic aborts the whole request;
* the `csv` crate's by-header deserialization is modelled by `getField` on
  a header row plus data rows (`List String` each); the `{:?}` rendering of
  the header record in the error message is modelled by `toString`;
* `std::collections::HashSet` deduplication is modelled by `List.dedup`;
  where the unspecified iteration order of the set matters the order is
  made an explicit argument constrained by `validDedup`;
* the `regex` crate is modelled by a small regular-expression engine
  (`regexParse` / `regexIsMatch`) supporting literals, `.` and postfix
  `*` with unanchored search; other metacharacters are rejected at
  compile time, matching the crate's rejection of the invalid patterns
  considered here (for example an unbalanced `(`);
* the `fuzzy_matcher` crate's `SkimMatcherV2::fuzzy_match` is kept
  abstract: the fuzzy operations take an arbitrary
  `matcher : String → String → Option Int` argument;
* `Vec::sort` (a stable sort by the `Ord` instance, which for
  `SearchResult` compares scores only) is modelled by
  `List.insertionSort`, which is also stable.
-/

deriving instance DecidableEq for Except

/-- Model of `chrono::NaiveTime` restricted to what `%H:%M` parsing produces. -/
structure Time where
  hour : Nat
  minute : Nat
deriving DecidableEq, Repr

/-- Model of `chrono::NaiveDate`. -/
structure Date where
  year : Nat
  month : Nat
  day : Nat
deriving DecidableEq, Repr

/-- Model of `chrono::NaiveDateTime`. -/
structure NaiveDateTime where
  date : Date
  time : Time
deriving DecidableEq, Repr

/-- Model of `chrono::DateTime<FixedOffset>`: a timestamp plus an offset. -/
structure DateTimeFixedOffset where
  secs : Int
  offsetSecs : Int
deriving DecidableEq, Repr

/-- The unique ID of a schedule (`ScheduleId(pub i64)`). -/
structure ScheduleId where
  val : Int
deriving DecidableEq, Repr

/-- The ID of an `Area` (`AreaId(pub i64)`). -/
structure AreaId where
  val : Int
deriving DecidableEq, Repr

/-- An enum to describe either a Weekly, Monthly, or Periodic recurrence. -/
inductive Recurrence where
  | weekly
  | monthly
  | periodic (offset : Date) (period_days : Nat)
deriving DecidableEq, Repr

/-- A recurring time during which the power *could* be out
(`struct RecurringOutage` in `src/structs.rs`). -/
structure RecurringOutage where
  start_time : Time
  finsh_time : Time
  stage : Nat
  recurrence : Recurrence
  day1_of_recurrence : Nat
deriving DecidableEq, Repr

/-- A loadshedding schedule that repeats over some period
(`struct RecurringSchedule` in `src/structs.rs`). -/
structure RecurringSchedule where
  id : ScheduleId
  outages : List RecurringOutage
  source : List String
  info : List String
  last_updated : Option NaiveDateTime
  valid_from : Option NaiveDateTime
  valid_until : Option NaiveDateTime
deriving DecidableEq, Repr

/-- One of the nine provinces of South Africa. -/
inductive Province where
  | EasternCape
  | FreeState
  | Gauteng
  | KwaZuluNatal
  | Limpopo
  | Mpumalanga
  | NorthWest
  | NorthernCape
  | WesternCape
deriving DecidableEq, Repr

/-- All the Metropolitan Municipalities in South Africa. -/
inductive MetroMunic where
  | BuffaloCity
  | CityOfCapeTown
  | CityOfEkurhuleni
  | CityOfJohannesburg
  | CityOfTshwane
  | Mangaung
  | NelsonMandelaBay
  | eThekwini
deriving DecidableEq, Repr

/-- All the district municipalities in South Africa. -/
inductive DistrictMunic where
  | AlfredNzo
  | Amajuba
  | Amathole
  | Bojanala
  | CapeWinelands
  | Capricorn
  | CentralKaroo
  | ChrisHani
  | DrKennethKaunda
  | DrRuthSegomotsiMompati
  | Ehlanzeni
  | FezileDabi
  | FrancesBaard
  | GardenRoute
  | GertSibande
  | HarryGwala
  | JoeGqabi
  | JohnTaoloGaetsewe
  | KingCetshwayo
  | Lejweleputswa
  | Mopani
  | Namakwa
  | NgakaModiriMolema
  | Nkangala
  | ORTambo
  | Overberg
  | PixleykaSeme
  | SarahBaartman
  | Sedibeng
  | Sekhukhune
  | ThaboMofutsanyana
  | Ugu
  | Vhembe
  | Waterberg
  | WestCoast
  | WestRand
  | Xhariep
  | ZFMgcawu
  | Zululand
  | iLembe
  | uMgungundlovu
  | uMkhanyakude
  | uMzinyathi
  | uThukela
deriving DecidableEq, Repr

/-- All Local Municipalities of South Africa. -/
inductive LocalMunic where
  | Abaqulusi
  | AlbertLuthuli
  | AlfredDuma
  | Amahlathi
  | BaPhalaborwa
  | BeaufortWest
  | BelaBela
  | Bergrivier
  | BigFiveHlabisa
  | Bitou
  | Blouberg
  | BlueCraneRoute
  | BreedeValley
  | Bushbuckridge
  | CapeAgulhas
  | Cederberg
  | CityOfMatlosana
  | CollinsChabane
  | Dannhauser
  | DawidKruiper
  | Dihlabeng
  | Dikgatlong
  | Dipaleseng
  | Ditsobotla
  | DrBeyersNaude
  | DrJSMoroka
  | DrNkosazanaDlaminiZuma
  | Drakenstein
  | EliasMotsoaledi
  | Elundini
  | Emakhazeni
  | EmalahleniEasternCape
  | EmalahleniMpumalanga
  | Emfuleni
  | Emthanjeni
  | Endumeni
  | Engcobo
  | EnochMgijima
  | EphraimMogale
  | FetakgomoTubatse
  | GaSegonyana
  | Gamagara
  | George
  | GovanMbeki
  | GreatKei
  | GreaterGiyani
  | GreaterKokstad
  | GreaterLetaba
  | GreaterTaung
  | GreaterTzaneen
  | Hantam
  | Hessequa
  | Impendle
  | IngquzaHill
  | InkosiLangalibalele
  | IntsikaYethu
  | InxubaYethemba
  | JBMarks
  | JoeMorolong
  | Jozini
  | KagisanoMolopo
  | KaiGarib
  | Kamiesberg
  | Kannaland
  | Kareeberg
  | KarooHoogland
  | Kgatelopele
  | Kgetlengrivier
  | KhaiMa
  | Kheis
  | KingSabataDalindyebo
  | Knysna
  | Kopanong
  | KouKamma
  | Kouga
  | KwaDukuza
  | Laingsburg
  | Langeberg
  | Lekwa
  | LekwaTeemane
  | LepelleNkumpi
  | Lephalale
  | Lesedi
  | Letsemeng
  | Madibeng
  | Mafube
  | Magareng
  | Mahikeng
  | Makana
  | Makhado
  | Makhuduthamaga
  | MalutiAPhofung
  | Mamusa
  | Mandeni
  | Mantsopa
  | Maphumulo
  | MaquassiHills
  | Maruleng
  | Masilonyana
  | Matatiele
  | Matjhabeng
  | Matzikama
  | Mbhashe
  | Mbombela
  | MerafongCity
  | Metsimaholo
  | Mhlontlo
  | Midvaal
  | Mkhambathini
  | Mkhondo
  | Mnquma
  | ModimolleMookgophong
  | Mogalakwena
  | MogaleCity
  | Mohokare
  | Molemole
  | Moqhaka
  | Moretele
  | MosesKotane
  | MosselBay
  | Mpofana
  | Msinga
  | Msukaligwa
  | Msunduzi
  | Mthonjaneni
  | Mtubatuba
  | Musina
  | Nala
  | Naledi
  | NamaKhoi
  | Ndlambe
  | Ndwedwe
  | Newcastle
  | Ngqushwa
  | Ngwathe
  | Nkandla
  | Nketoana
  | Nkomazi
  | Nongoma
  | Nqutu
  | Ntabankulu
  | Nyandeni
  | Okhahlamba
  | Oudtshoorn
  | Overstrand
  | Phokwane
  | Phumelela
  | PixleykaSeme
  | Polokwane
  | PortStJohns
  | PrinceAlbert
  | RamotshereMoiloa
  | RandWestCity
  | Ratlou
  | RayNkonyeni
  | RaymondMhlaba
  | Renosterberg
  | Richmond
  | Richtersveld
  | Rustenburg
  | Sakhisizwe
  | SaldanhaBay
  | Senqu
  | Setsoto
  | Siyancuma
  | Siyathemba
  | SolPlaatje
  | Stellenbosch
  | SteveTshwete
  | SundaysRiverValley
  | Swartland
  | Swellendam
  | ThabaChweu
  | Thabazimbi
  | Theewaterskloof
  | Thembelihle
  | ThembisileHani
  | Thulamela
  | Tokologo
  | Tsantsabane
  | Tswaing
  | Tswelopele
  | Ubuhlebezwe
  | Ubuntu
  | Ulundi
  | Umdoni
  | Umsobomvu
  | Umvoti
  | Umzimkhulu
  | Umzimvubu
  | Umzumbe
  | VictorKhanye
  | WalterSisulu
  | WinnieMadikizelaMandela
  | Witzenberg
  | eDumbe
  | eMadlangeni
  | uMfolozi
  | uMhlabuyalingana
  | uMhlathuze
  | uMlalazi
  | uMngeni
  | uMshwathi
  | uMuziwabantu
  | uPhongolo
deriving DecidableEq, Repr

/-- Municipalities are either Metropolitan, or District subdivided into Local.
The Rust field named `local` is called `local_munic` here because `local` is a
Lean keyword. -/
inductive Municipality where
  | Metro (munic : MetroMunic)
  | District (district : DistrictMunic) (local_munic : LocalMunic)
deriving DecidableEq, Repr

/-- A geographical area which has a loadshedding schedule
(`struct Area` in `src/structs.rs`). -/
structure Area where
  name : String
  id : AreaId
  schedule : ScheduleId
  aliases : List String
  province : Option Province
  municipality : Option Municipality
deriving DecidableEq, Repr

/-- Raw CSV row of the periodic schedule schema
(`struct RawPeriodicShedding` in `src/structs.rs`). -/
structure RawPeriodicShedding where
  start_time : String
  finsh_time : String
  stage : Nat
  day_of_cycle : Nat
  period_of_cycle : Nat
  start_of_cycle : String
deriving DecidableEq, Repr

/-- Raw CSV row of the weekly schedule schema
(`struct RawWeeklyShedding` in `src/structs.rs`). -/
structure RawWeeklyShedding where
  start_time : String
  finsh_time : String
  stage : Nat
  day_of_week : Nat
deriving DecidableEq, Repr

/-- Raw CSV row of the monthly schedule schema
(`struct RawMonthlyShedding` in `src/structs.rs`). -/
structure RawMonthlyShedding where
  start_time : String
  finsh_time : String
  stage : Nat
  date_of_month : Nat
deriving DecidableEq, Repr

/-- A duration in time when the power will be out for a certain area
(`struct PowerOutage` in `src/structs.rs`). -/
structure PowerOutage where
  area_name : String
  stage : Nat
  start : DateTimeFixedOffset
  finsh : DateTimeFixedOffset
  source : String
deriving DecidableEq, Repr

/-- A generic search result (`struct SearchResult<T>` in `src/structs.rs`). -/
structure SearchResult (T : Type) where
  score : Int
  result : T
deriving DecidableEq, Repr

/-- Split a character list on a separator character (the semantics of
`String.splitOn` with a one-character separator). -/
def splitOnChar (sep : Char) : List Char → List (List Char)
  | [] => [[]]
  | c :: cs =>
    let rest := splitOnChar sep cs
    if c == sep then [] :: rest
    else
      match rest with
      | [] => [[c]]
      | r :: rs => (c :: r) :: rs

/-- The numeric value of a decimal digit character. -/
def charDigit (c : Char) : Option Nat :=
  if 48 ≤ c.toNat && c.toNat ≤ 57 then some (c.toNat - 48) else none

/-- Accumulate decimal digits into a number; any non-digit fails. -/
def digitsToNatAux : List Char → Nat → Option Nat
  | [], acc => some acc
  | c :: cs, acc =>
    match charDigit c with
    | none => none
    | some d => digitsToNatAux cs (acc * 10 + d)

/-- Parse a non-empty all-digit character list as a decimal number. -/
def parseNatDigits (l : List Char) : Option Nat :=
  if l.isEmpty then none else digitsToNatAux l 0

/-- Model of chrono `%H:%M` parsing: one or two digit hour 0..23, colon,
one or two digit minute 0..59, nothing else. -/
def parseTimeHM (s : String) : Option Time :=
  match splitOnChar ':' s.data with
  | [hs, ms] =>
    match parseNatDigits hs, parseNatDigits ms with
    | some h, some m =>
      if 1 ≤ hs.length && hs.length ≤ 2 && 1 ≤ ms.length && ms.length ≤ 2
          && h ≤ 23 && m ≤ 59 then
        some ⟨h, m⟩
      else
        none
    | _, _ => none
  | _ => none

/-- Minutes since midnight, for comparing times of day. -/
def timeMinutes (t : Time) : Nat :=
  t.hour * 60 + t.minute

/-- Gregorian leap-year rule, as used by chrono's calendar validation. -/
def isLeapYear (y : Nat) : Bool :=
  (y % 4 == 0 && y % 100 != 0) || y % 400 == 0

/-- Number of days in a month of a given year. -/
def daysInMonth (y m : Nat) : Nat :=
  if m == 2 then (if isLeapYear y then 29 else 28)
  else if m == 4 || m == 6 || m == 9 || m == 11 then 30
  else 31

/-- Model of chrono `%Y-%m-%d` parsing with calendar validation. -/
def parseDateYMD (s : String) : Option Date :=
  match splitOnChar '-' s.data with
  | [ys, ms, ds] =>
    match parseNatDigits ys, parseNatDigits ms, parseNatDigits ds with
    | some y, some m, some d =>
      if 1 ≤ ys.length && ys.length ≤ 4 && 1 ≤ ms.length && ms.length ≤ 2
          && 1 ≤ ds.length && ds.length ≤ 2 && 1 ≤ m && m ≤ 12
          && 1 ≤ d && d ≤ daysInMonth y m then
        some ⟨y, m, d⟩
      else
        none
    | _, _, _ => none
  | _ => none

/-- Model of an `unwrap` on an `Option`: a `none` aborts the request with
the given panic message. -/
def expectSome {α : Type} (o : Option α) (msg : String) : Except String α :=
  match o with
  | some a => Except.ok a
  | none => Except.error msg

/-- Panic message of the weekly `assert!` in `src/structs.rs`. -/
def weeklyDayMsg : String :=
  "Day of the week must be one of 1, 2, 3, 4, 5, 6, 7"

/-- Panic message of the monthly `assert!` in `src/structs.rs`. -/
def monthlyDateMsg : String :=
  "Date of month must be in the range (0, 31]"

/-- Panic message of the periodic `assert!` in `src/structs.rs`. -/
def periodicDayMsg (day period : Nat) : String :=
  "Day of the cycle " ++ toString day ++ " must be <= period of the cycle "
    ++ toString period

/-- Panic message used when a strict-format time/date field fails to parse
(model of `unwrap` on `NaiveTime::parse_from_str` and friends). -/
def fieldParseMsg : String :=
  "called Option.unwrap on a None value"

/-- Model of `impl From<RawWeeklyShedding> for RecurringOutage`:
first the `assert!` on `day_of_week`, then the two strict time parses. -/
def recurringOutageOfRawWeekly (raw : RawWeeklyShedding) :
    Except String RecurringOutage :=
  if !(0 < raw.day_of_week && raw.day_of_week < 8) then
    Except.error weeklyDayMsg
  else
    match parseTimeHM raw.start_time, parseTimeHM raw.finsh_time with
    | some st, some ft =>
      Except.ok ⟨st, ft, raw.stage, Recurrence.weekly, raw.day_of_week⟩
    | none, _ => Except.error fieldParseMsg
    | some _, none => Except.error fieldParseMsg

/-- Model of `impl From<RawMonthlyShedding> for RecurringOutage`:
first the `assert!` on `date_of_month`, then the two strict time parses. -/
def recurringOutageOfRawMonthly (raw : RawMonthlyShedding) :
    Except String RecurringOutage :=
  if !(0 < raw.date_of_month && raw.date_of_month ≤ 31) then
    Except.error monthlyDateMsg
  else
    match parseTimeHM raw.start_time, parseTimeHM raw.finsh_time with
    | some st, some ft =>
      Except.ok ⟨st, ft, raw.stage, Recurrence.monthly, raw.date_of_month⟩
    | none, _ => Except.error fieldParseMsg
    | some _, none => Except.error fieldParseMsg

/-- Model of `impl From<RawPeriodicShedding> for RecurringOutage`:
first the `assert!` on `day_of_cycle <= period_of_cycle`, then the strict
date parse of `start_of_cycle`, then the two strict time parses. -/
def recurringOutageOfRawPeriodic (raw : RawPeriodicShedding) :
    Except String RecurringOutage :=
  if !(raw.day_of_cycle ≤ raw.period_of_cycle) then
    Except.error (periodicDayMsg raw.day_of_cycle raw.period_of_cycle)
  else
    match parseDateYMD raw.start_of_cycle with
    | none => Except.error fieldParseMsg
    | some offset =>
      match parseTimeHM raw.start_time, parseTimeHM raw.finsh_time with
      | some st, some ft =>
        Except.ok ⟨st, ft, raw.stage,
          Recurrence.periodic offset raw.period_of_cycle, raw.day_of_cycle⟩
      | none, _ => Except.error fieldParseMsg
      | some _, none => Except.error fieldParseMsg

/-- Model of the `csv` crate's by-header field lookup: the value of the
column named `name` in `row`, given the header row `headers`. -/
def getField (headers row : List String) (name : String) : Option String :=
  (headers.indexOf? name).bind (fun i => row[i]?)

/-- Model of serde's `u8` field parsing: decimal digits, range 0..255. -/
def parseU8 (s : String) : Option Nat :=
  (parseNatDigits s.data).bind (fun n => if n ≤ 255 then some n else none)

/-- Deserialize one CSV record as a `RawWeeklyShedding`. -/
def deserializeRawWeekly (headers row : List String) :
    Option RawWeeklyShedding := do
  let st ← getField headers row "start_time"
  let ft ← getField headers row "finsh_time"
  let stage ← parseU8 (← getField headers row "stage")
  let dow ← parseU8 (← getField headers row "day_of_week")
  pure ⟨st, ft, stage, dow⟩

/-- Deserialize one CSV record as a `RawMonthlyShedding`. -/
def deserializeRawMonthly (headers row : List String) :
    Option RawMonthlyShedding := do
  let st ← getField headers row "start_time"
  let ft ← getField headers row "finsh_time"
  let stage ← parseU8 (← getField headers row "stage")
  let dom ← parseU8 (← getField headers row "date_of_month")
  pure ⟨st, ft, stage, dom⟩

/-- Deserialize one CSV record as a `RawPeriodicShedding`. -/
def deserializeRawPeriodic (headers row : List String) :
    Option RawPeriodicShedding := do
  let st ← getField headers row "start_time"
  let ft ← getField headers row "finsh_time"
  let stage ← parseU8 (← getField headers row "stage")
  let dayc ← parseU8 (← getField headers row "day_of_cycle")
  let periodc ← parseU8 (← getField headers row "period_of_cycle")
  let startc ← getField headers row "start_of_cycle"
  pure ⟨st, ft, stage, dayc, periodc, startc⟩

/-- Model of `reader.deserialize().map(|res| res.unwrap().into()).collect()`:
each row is converted in order and the first failure aborts the request. -/
def collectResults {α β : Type} (f : α → Except String β) :
    List α → Except String (List β)
  | [] => Except.ok []
  | x :: xs =>
    match f x with
    | Except.error e => Except.error e
    | Except.ok y =>
      match collectResults f xs with
      | Except.error e => Except.error e
      | Except.ok ys => Except.ok (y :: ys)

/-- Panic message of the `unwrap` on a failed row deserialization. -/
def deserMsg : String := "called Result.unwrap on an Err value"

/-- The monthly branch of `v0_0_1::schedules`. -/
def schedulesMonthly (headers : List String) (rows : List (List String)) :
    Except String (List RecurringOutage) :=
  collectResults
    (fun row => do
      let raw ← expectSome (deserializeRawMonthly headers row) deserMsg
      recurringOutageOfRawMonthly raw)
    rows

/-- The weekly branch of `v0_0_1::schedules`. -/
def schedulesWeekly (headers : List String) (rows : List (List String)) :
    Except String (List RecurringOutage) :=
  collectResults
    (fun row => do
      let raw ← expectSome (deserializeRawWeekly headers row) deserMsg
      recurringOutageOfRawWeekly raw)
    rows

/-- The periodic branch of `v0_0_1::schedules`. -/
def schedulesPeriodic (headers : List String) (rows : List (List String)) :
    Except String (List RecurringOutage) :=
  collectResults
    (fun row => do
      let raw ← expectSome (deserializeRawPeriodic headers row) deserMsg
      recurringOutageOfRawPeriodic raw)
    rows

/-- The error message `format!("Couldn't parse headers {:?}", headers)`,
with the `{:?}` rendering of the header record modelled by `toString`. -/
def headersErrorMsg (headers : List String) : String :=
  "Couldn't parse headers " ++ toString headers

/-- The `RecurringSchedule` literal built at the end of `v0_0_1::schedules`:
only `outages` is populated, everything else is default or empty. -/
def mkSchedule (outages : List RecurringOutage) : RecurringSchedule :=
  ⟨⟨0⟩, outages, [], [], none, none, none⟩

/-- An atom of the model regular-expression engine: `.` or a literal. -/
inductive RegexAtom where
  | dot
  | lit (c : Char)
deriving DecidableEq, Repr

/-- Characters the model regex engine accepts as literals.  Metacharacters
such as `(` are rejected by `regexParse`, as the `regex` crate rejects the
unbalanced patterns considered here. -/
def regexLiteralChar (c : Char) : Bool :=
  c.isAlphanum || c == '_' || c == '-' || c == ' '

/-- Model of `Regex::new`: compile a pattern to a list of atoms, each
optionally starred.  `none` models a pattern that fails to compile. -/
def regexParse : List Char → Option (List (RegexAtom × Bool))
  | [] => some []
  | c :: rest =>
    let atom : Option RegexAtom :=
      if c == '.' then some RegexAtom.dot
      else if regexLiteralChar c then some (RegexAtom.lit c)
      else none
    match atom with
    | none => none
    | some a =>
      match rest with
      | '*' :: more => (regexParse more).map (fun as => (a, true) :: as)
      | [] => some [(a, false)]
      | d :: more => (regexParse (d :: more)).map (fun as => (a, false) :: as)

/-- Does an atom match one character. -/
def atomMatch : RegexAtom → Char → Bool
  | RegexAtom.dot, _ => true
  | RegexAtom.lit c, d => c == d

/-- Does the compiled pattern match a prefix of `s`. -/
def matchFrom (atoms : List (RegexAtom × Bool)) (s : List Char) : Bool :=
  match atoms, s with
  | [], _ => true
  | (_, false) :: _, [] => false
  | (a, false) :: rest, c :: cs => atomMatch a c && matchFrom rest cs
  | (_, true) :: rest, [] => matchFrom rest []
  | (a, true) :: rest, c :: cs =>
    matchFrom rest (c :: cs) || (atomMatch a c && matchFrom ((a, true) :: rest) cs)
termination_by (s.length, atoms.length)

/-- Does the compiled pattern match starting at any position of `s`. -/
def searchFrom (atoms : List (RegexAtom × Bool)) : List Char → Bool
  | [] => matchFrom atoms []
  | c :: cs => matchFrom atoms (c :: cs) || searchFrom atoms cs

/-- Model of `Regex::is_match`: unanchored search. -/
def regexIsMatch (atoms : List (RegexAtom × Bool)) (s : String) : Bool :=
  searchFrom atoms s.data

/-- ASCII lower-casing of one character (`str::to_ascii_lowercase`). -/
def asciiToLower (c : Char) : Char :=
  if 65 ≤ c.toNat && c.toNat ≤ 90 then Char.ofNat (c.toNat + 32) else c

/-- Is `c` in `[a-zA-Z0-9_]` (the complement of the replaced class). -/
def isWordChar (c : Char) : Bool :=
  (97 ≤ c.toNat && c.toNat ≤ 122) || (65 ≤ c.toNat && c.toNat ≤ 90)
    || (48 ≤ c.toNat && c.toNat ≤ 57) || c.toNat == 95

/-- One character of the fuzzy-search normalization: characters outside
`[a-zA-Z0-9_]` become a space, then ASCII lower-casing is applied (a space
is unchanged by lower-casing, so the two passes fuse per character). -/
def preprocessChar (c : Char) : Char :=
  if isWordChar c then asciiToLower c else ' '

/-- The `preprocess` closure of `v0_0_1::fuzzy_search`: replace every
character outside `[a-zA-Z0-9_]` with a space, then lower-case. -/
def preprocess (q : String) : String :=
  ⟨q.data.map preprocessChar⟩

/-- The order `impl Ord for SearchResult` induces: compare scores only. -/
def scoreLE {T : Type} (a b : SearchResult T) : Prop :=
  a.score ≤ b.score

instance {T : Type} : DecidableRel (@scoreLE T) :=
  fun a b => inferInstanceAs (Decidable (a.score ≤ b.score))

instance {T : Type} : IsTotal (SearchResult T) scoreLE :=
  ⟨fun a b => Int.le_total a.score b.score⟩

instance {T : Type} : IsTrans (SearchResult T) scoreLE :=
  ⟨fun _ _ _ h1 h2 => le_trans h1 h2⟩

/-- The final `.sort()` call on areas: sort strings ascending. -/
def sortStrings (l : List String) : List String :=
  List.insertionSort (fun a b => a ≤ b) l

/-- The iteration orders the `HashSet` deduplication step can produce for
a given feed: any enumeration of the distinct area names, i.e. any
permutation of their canonical deduplication. -/
def validDedup (feed : List PowerOutage) (names : List String) : Prop :=
  names.Perm ((feed.map (fun o => o.area_name)).dedup)

namespace v0_0_1

/-- Core of `v0_0_1::fuzzy_search` after the `HashSet` deduplication step:
`uniqueNames` is the deduplicated candidate list in set-iteration order.
Note the source normalizes the query once up front and then applies
`preprocess` again inside the closure. -/
def fuzzy_searchWithOrder (matcher : String → String → Option Int)
    (uniqueNames : List String) (query0 : String) : List (SearchResult Area) :=
  let query := preprocess query0
  let matching_areas := uniqueNames.filterMap (fun area_name =>
    (matcher (preprocess area_name) (preprocess query)).map (fun score =>
      ⟨score, ⟨area_name, ⟨0⟩, ⟨0⟩, [], none, none⟩⟩))
  (List.insertionSort scoreLE matching_areas).reverse

/-- Model of `v0_0_1::fuzzy_search` over an already-fetched feed, with the
skim matcher abstract and the `HashSet` order fixed to the canonical
deduplication (see `validDedup` for the order-nondeterminism analysis). -/
def fuzzy_search (matcher : String → String → Option Int)
    (feed : List PowerOutage) (query : String) : List (SearchResult Area) :=
  fuzzy_searchWithOrder matcher ((feed.map (fun o => o.area_name)).dedup) query

/-- Model of `v0_0_1::outages` over an already-fetched feed. -/
def outages (feed : List PowerOutage) (area_name : String) :
    Except String (List PowerOutage) :=
  let os := feed.filter (fun outage => outage.area_name == area_name)
  if os.isEmpty then
    Except.error ("No areas found that match `" ++ area_name ++ "`")
  else
    Except.ok os

/-- Model of the parsing part of `v0_0_1::schedules`, over the header row
and data rows of the fetched CSV. -/
def schedules (headers : List String) (rows : List (List String)) :
    Except String RecurringSchedule :=
  (if headers.any (fun h => h == "date_of_month") then
    schedulesMonthly headers rows
  else if headers.any (fun h => h == "day_of_week") then
    schedulesWeekly headers rows
  else if headers.any (fun h => h == "day_of_20_day_cycle") then
    schedulesPeriodic headers rows
  else
    Except.error (headersErrorMsg headers)).map mkSchedule

/-- Model of `v0_0_1::list_areas` over an already-fetched feed. -/
def list_areas (feed : List PowerOutage) (regex : String) :
    Except String (List String) :=
  match regexParse regex.data with
  | none => Except.error ("Error parsing '" ++ regex ++ "' as regex")
  | some re =>
    Except.ok (sortStrings
      (((feed.filter (fun outage => regexIsMatch re outage.area_name)).map
        (fun outage => outage.area_name)).dedup))

/-- Model of `v0_0_1::list_all_areas`: `list_areas(".*")`. -/
def list_all_areas (feed : List PowerOutage) : Except String (List String) :=
  list_areas feed ".*"

end v0_0_1

namespace latest

/-- `latest::fuzzy_search` forwards to `super::v0_0_1::fuzzy_search`. -/
def fuzzy_search (matcher : String → String → Option Int)
    (feed : List PowerOutage) (query : String) : List (SearchResult Area) :=
  v0_0_1.fuzzy_search matcher feed query

/-- `latest::outages` forwards to `super::v0_0_1::outages`. -/
def outages (feed : List PowerOutage) (area_name : String) :
    Except String (List PowerOutage) :=
  v0_0_1.outages feed area_name

/-- `latest::schedules` forwards to `super::v0_0_1::schedules`. -/
def schedules (headers : List String) (rows : List (List String)) :
    Except String RecurringSchedule :=
  v0_0_1.schedules headers rows

/-- `latest::list_all_areas` forwards to `super::v0_0_1::list_all_areas`. -/
def list_all_areas (feed : List PowerOutage) : Except String (List String) :=
  v0_0_1.list_all_areas feed

/-- `latest::list_areas` forwards to `super::v0_0_1::list_areas`. -/
def list_areas (feed : List PowerOutage) (regex : String) :
    Except String (List String) :=
  v0_0_1.list_areas feed regex

end latest

theorem outages_eq_def (feed : List PowerOutage) (a : String) :
    v0_0_1.outages feed a =
      if (feed.filter (fun o => o.area_name == a)).isEmpty then
        Except.error ("No areas found that match `" ++ a ++ "`")
      else
        Except.ok (feed.filter (fun o => o.area_name == a)) := rfl

/-- C1: for every feed and query, `outages` succeeds exactly with the
sub-sequence of feed rows whose `area_name` equals the query (so every
element of a successful result has `area_name` equal to the query and the
result is non-empty), and it fails with the not-found error if and only if
that filtered sequence is empty. -/
theorem outages_exact_filter (feed : List PowerOutage) (area_name : String) :
    (∀ l, v0_0_1.outages feed area_name = Except.ok l →
      l = feed.filter (fun o => o.area_name == area_name) ∧ l ≠ [] ∧
        ∀ o ∈ l, o.area_name = area_name)
    ∧ (v0_0_1.outages feed area_name =
        Except.error ("No areas found that match `" ++ area_name ++ "`") ↔
        feed.filter (fun o => o.area_name == area_name) = []) := by
  have hchar : ∀ o ∈ feed.filter (fun o => o.area_name == area_name),
      o.area_name = area_name := by
    intro o ho
    simpa using (List.mem_filter.mp ho).2
  rw [outages_eq_def]
  by_cases h : (feed.filter (fun o => o.area_name == area_name)).isEmpty
  · rw [if_pos h]
    refine ⟨?_, ?_⟩
    · intro l hl
      simp at hl
    · exact ⟨fun _ => List.isEmpty_iff.mp h, fun _ => rfl⟩
  · rw [if_neg h]
    refine ⟨?_, ?_⟩
    · intro l hl
      have hl' : feed.filter (fun o => o.area_name == area_name) = l :=
        Except.ok.inj hl
      refine ⟨hl'.symm, ?_, ?_⟩
      · rw [← hl']
        intro hnil
        exact h (by rw [hnil]; rfl)
      · intro o ho
        exact hchar o (by rw [hl']; exact ho)
    · constructor
      · intro he
        simp at he
      · intro hnil
        exact absurd (by rw [hnil]; rfl) h
  
theorem outages_exact_filter_witness :
    ([⟨"a", 1, ⟨0, 0⟩, ⟨0, 0⟩, "s"⟩, ⟨"b", 2, ⟨0, 0⟩, ⟨0, 0⟩, "s"⟩] :
        List PowerOutage).filter (fun o => o.area_name == "a") =
        [⟨"a", 1, ⟨0, 0⟩, ⟨0, 0⟩, "s"⟩]
    ∧ ([⟨"a", 1, ⟨0, 0⟩, ⟨0, 0⟩, "s"⟩] : List PowerOutage) =
        ([⟨"a", 1, ⟨0, 0⟩, ⟨0, 0⟩, "s"⟩, ⟨"b", 2, ⟨0, 0⟩, ⟨0, 0⟩, "s"⟩] :
          List PowerOutage).filter (fun o => o.area_name == "a")
      ∧ ([⟨"a", 1, ⟨0, 0⟩, ⟨0, 0⟩, "s"⟩] : List PowerOutage) ≠ []
      ∧ ∀ o ∈ ([⟨"a", 1, ⟨0, 0⟩, ⟨0, 0⟩, "s"⟩] : List PowerOutage),
          o.area_name = "a" :=
  ⟨by decide,
    (outages_exact_filter
      [⟨"a", 1, ⟨0, 0⟩, ⟨0, 0⟩, "s"⟩, ⟨"b", 2, ⟨0, 0⟩, ⟨0, 0⟩, "s"⟩] "a").1
      [⟨"a", 1, ⟨0, 0⟩, ⟨0, 0⟩, "s"⟩] (by decide)⟩

/-- C6: for every pattern that fails to compile as a regular expression,
`list_areas` fails with the regex error naming the pattern, for every feed
(never a partial or empty success). -/
theorem list_areas_invalid_regex_error (pattern : String)
    (feed : List PowerOutage) (h : regexParse pattern.data = none) :
    v0_0_1.list_areas feed pattern =
      Except.error ("Error parsing '" ++ pattern ++ "' as regex") := by
  unfold v0_0_1.list_areas
  rw [h]

theorem list_areas_invalid_regex_error_witness :
    v0_0_1.list_areas [⟨"western-cape-stellenbosch", 1, ⟨0, 0⟩, ⟨0, 0⟩, "s"⟩]
        "(" = Except.error "Error parsing '(' as regex" :=
  list_areas_invalid_regex_error "("
    [⟨"western-cape-stellenbosch", 1, ⟨0, 0⟩, ⟨0, 0⟩, "s"⟩] (by decide)

/-- C7: normalizing `RawWeeklyShedding { day_of_week: 3, start_time: "22:00",
finsh_time: "00:30", stage: 4 }` yields the weekly `RecurringOutage` with the
same day, stage and times; the finish time is earlier in the day than the
start time and is preserved unchanged, not rejected or swapped. -/
theorem weekly_overnight_roundtrip :
    recurringOutageOfRawWeekly ⟨"22:00", "00:30", 4, 3⟩ =
      Except.ok ⟨⟨22, 0⟩, ⟨0, 30⟩, 4, Recurrence.weekly, 3⟩
    ∧ timeMinutes ⟨0, 30⟩ < timeMinutes ⟨22, 0⟩ :=
  ⟨by decide, by decide⟩

/-- C8: every operation of the `latest` namespace returns, on every input,
exactly the result of the corresponding `v0_0_1` operation: the two
namespaces expose the same five operations and `latest` forwards to the
pinned implementation. -/
theorem latest_forwards_to_v0_0_1 (matcher : String → String → Option Int)
    (feed : List PowerOutage) (query area_name regex : String)
    (headers : List String) (rows : List (List String)) :
    latest.fuzzy_search matcher feed query =
        v0_0_1.fuzzy_search matcher feed query
    ∧ latest.outages feed area_name = v0_0_1.outages feed area_name
    ∧ latest.schedules headers rows = v0_0_1.schedules headers rows
    ∧ latest.list_all_areas feed = v0_0_1.list_all_areas feed
    ∧ latest.list_areas feed regex = v0_0_1.list_areas feed regex :=
  ⟨rfl, rfl, rfl, rfl, rfl⟩

theorem any_marker_iff (headers : List String) (s : String) :
    headers.any (fun x => x == s) = true ↔ s ∈ headers := by
  rw [List.any_eq_true]
  constructor
  · rintro ⟨x, hx, hbeq⟩
    rw [← eq_of_beq hbeq]
    exact hx
  · intro hs
    exact ⟨s, hs, beq_self_eq_true s⟩

theorem any_marker_false (headers : List String) (s : String)
    (h : s ∉ headers) : headers.any (fun x => x == s) = false := by
  cases hb : headers.any (fun x => x == s)
  · rfl
  · exact absurd ((any_marker_iff headers s).mp hb) h

theorem schedules_eq_monthly (headers : List String) (rows : List (List String))
    (h : headers.any (fun x => x == "date_of_month") = true) :
    v0_0_1.schedules headers rows =
      (schedulesMonthly headers rows).map mkSchedule := by
  unfold v0_0_1.schedules
  rw [h]
  rfl

theorem schedules_eq_weekly (headers : List String) (rows : List (List String))
    (h1 : headers.any (fun x => x == "date_of_month") = false)
    (h2 : headers.any (fun x => x == "day_of_week") = true) :
    v0_0_1.schedules headers rows =
      (schedulesWeekly headers rows).map mkSchedule := by
  unfold v0_0_1.schedules
  rw [h1, h2]
  rfl

theorem schedules_eq_periodic (headers : List String) (rows : List (List String))
    (h1 : headers.any (fun x => x == "date_of_month") = false)
    (h2 : headers.any (fun x => x == "day_of_week") = false)
    (h3 : headers.any (fun x => x == "day_of_20_day_cycle") = true) :
    v0_0_1.schedules headers rows =
      (schedulesPeriodic headers rows).map mkSchedule := by
  unfold v0_0_1.schedules
  rw [h1, h2, h3]
  rfl

theorem schedules_eq_error (headers : List String) (rows : List (List String))
    (h1 : headers.any (fun x => x == "date_of_month") = false)
    (h2 : headers.any (fun x => x == "day_of_week") = false)
    (h3 : headers.any (fun x => x == "day_of_20_day_cycle") = false) :
    v0_0_1.schedules headers rows = Except.error (headersErrorMsg headers) := by
  unfold v0_0_1.schedules
  rw [h1, h2, h3]
  rfl

theorem collectResults_ok_mem {α β : Type} (f : α → Except String β)
    (l : List α) (ys : List β) (h : collectResults f l = Except.ok ys) :
    ∀ y ∈ ys, ∃ x ∈ l, f x = Except.ok y := by
  induction l generalizing ys with
  | nil =>
    obtain rfl : ([] : List β) = ys := Except.ok.inj h
    intro y hy
    exact absurd hy (List.not_mem_nil y)
  | cons x xs ih =>
    unfold collectResults at h
    cases hfx : f x with
    | error e =>
      rw [hfx] at h
      exact absurd h (by simp)
    | ok y0 =>
      rw [hfx] at h
      cases hrest : collectResults f xs with
      | error e =>
        rw [hrest] at h
        exact absurd h (by simp)
      | ok ys0 =>
        rw [hrest] at h
        obtain rfl : y0 :: ys0 = ys := Except.ok.inj h
        intro y hy
        rcases List.mem_cons.mp hy with h1 | h2
        · exact ⟨x, List.mem_cons_self x xs, by rw [← h1] at hfx; exact hfx⟩
        · obtain ⟨x1, hx1, hfx1⟩ := ih ys0 hrest y h2
          exact ⟨x1, List.mem_cons_of_mem x hx1, hfx1⟩

theorem recOfMonthly_recurrence (raw : RawMonthlyShedding) (o : RecurringOutage)
    (h : recurringOutageOfRawMonthly raw = Except.ok o) :
    o.recurrence = Recurrence.monthly := by
  unfold recurringOutageOfRawMonthly at h
  split at h
  · exact absurd h (by simp)
  · split at h
    · obtain rfl := Except.ok.inj h
      rfl
    · exact absurd h (by simp)
    · exact absurd h (by simp)

theorem recOfWeekly_recurrence (raw : RawWeeklyShedding) (o : RecurringOutage)
    (h : recurringOutageOfRawWeekly raw = Except.ok o) :
    o.recurrence = Recurrence.weekly := by
  unfold recurringOutageOfRawWeekly at h
  split at h
  · exact absurd h (by simp)
  · split at h
    · obtain rfl := Except.ok.inj h
      rfl
    · exact absurd h (by simp)
    · exact absurd h (by simp)

theorem recOfPeriodic_recurrence (raw : RawPeriodicShedding)
    (o : RecurringOutage)
    (h : recurringOutageOfRawPeriodic raw = Except.ok o) :
    ∃ offset n, o.recurrence = Recurrence.periodic offset n := by
  unfold recurringOutageOfRawPeriodic at h
  split at h
  · exact absurd h (by simp)
  · split at h
    · exact absurd h (by simp)
    · split at h
      · obtain rfl := Except.ok.inj h
        exact ⟨_, _, rfl⟩
      · exact absurd h (by simp)
      · exact absurd h (by simp)

theorem schedulesMonthly_ok_rec (headers : List String)
    (rows : List (List String)) (outs : List RecurringOutage)
    (h : schedulesMonthly headers rows = Except.ok outs) :
    ∀ o ∈ outs, o.recurrence = Recurrence.monthly := by
  intro o ho
  obtain ⟨row, _, hf⟩ := collectResults_ok_mem _ rows outs h o ho
  cases hd : deserializeRawMonthly headers row with
  | none =>
    simp only [expectSome, hd, Except.bind] at hf
    exact absurd hf (by simp [Bind.bind, Except.bind])
  | some raw =>
    simp only [expectSome, hd, Bind.bind, Except.bind] at hf
    exact recOfMonthly_recurrence raw o hf

theorem schedulesWeekly_ok_rec (headers : List String)
    (rows : List (List String)) (outs : List RecurringOutage)
    (h : schedulesWeekly headers rows = Except.ok outs) :
    ∀ o ∈ outs, o.recurrence = Recurrence.weekly := by
  intro o ho
  obtain ⟨row, _, hf⟩ := collectResults_ok_mem _ rows outs h o ho
  cases hd : deserializeRawWeekly headers row with
  | none =>
    simp only [expectSome, hd, Except.bind] at hf
    exact absurd hf (by simp [Bind.bind, Except.bind])
  | some raw =>
    simp only [expectSome, hd, Bind.bind, Except.bind] at hf
    exact recOfWeekly_recurrence raw o hf

theorem schedulesPeriodic_ok_rec (headers : List String)
    (rows : List (List String)) (outs : List RecurringOutage)
    (h : schedulesPeriodic headers rows = Except.ok outs) :
    ∀ o ∈ outs, ∃ offset n, o.recurrence = Recurrence.periodic offset n := by
  intro o ho
  obtain ⟨row, _, hf⟩ := collectResults_ok_mem _ rows outs h o ho
  cases hd : deserializeRawPeriodic headers row with
  | none =>
    simp only [expectSome, hd, Except.bind] at hf
    exact absurd hf (by simp [Bind.bind, Except.bind])
  | some raw =>
    simp only [expectSome, hd, Bind.bind, Except.bind] at hf
    exact recOfPeriodic_recurrence raw o hf

theorem except_map_ok {ε α β : Type} (f : α → β) (e : Except ε α) (b : β)
    (h : e.map f = Except.ok b) : ∃ a, e = Except.ok a ∧ b = f a := by
  cases e with
  | error msg => exact absurd h (by simp [Except.map])
  | ok a => exact ⟨a, rfl, (Except.ok.inj h).symm⟩

/-- C2: the schedule parser selects the row schema from the header row:
with exactly one marker column present, `date_of_month` selects the Monthly
variant, `day_of_week` the Weekly variant and `day_of_20_day_cycle` the
Periodic variant (the rows are deserialized by that variant's schema and
every resulting outage carries that variant's recurrence); with none of the
three markers present, parsing fails with the error naming the headers that
were actually seen. -/
theorem schedules_header_sniffing (headers : List String)
    (rows : List (List String)) :
    ("date_of_month" ∈ headers → "day_of_week" ∉ headers →
        "day_of_20_day_cycle" ∉ headers →
      v0_0_1.schedules headers rows =
          (schedulesMonthly headers rows).map mkSchedule
        ∧ ∀ sched, v0_0_1.schedules headers rows = Except.ok sched →
            ∀ o ∈ sched.outages, o.recurrence = Recurrence.monthly)
    ∧ ("day_of_week" ∈ headers → "date_of_month" ∉ headers →
        "day_of_20_day_cycle" ∉ headers →
      v0_0_1.schedules headers rows =
          (schedulesWeekly headers rows).map mkSchedule
        ∧ ∀ sched, v0_0_1.schedules headers rows = Except.ok sched →
            ∀ o ∈ sched.outages, o.recurrence = Recurrence.weekly)
    ∧ ("day_of_20_day_cycle" ∈ headers → "date_of_month" ∉ headers →
        "day_of_week" ∉ headers →
      v0_0_1.schedules headers rows =
          (schedulesPeriodic headers rows).map mkSchedule
        ∧ ∀ sched, v0_0_1.schedules headers rows = Except.ok sched →
            ∀ o ∈ sched.outages,
              ∃ offset n, o.recurrence = Recurrence.periodic offset n)
    ∧ ("date_of_month" ∉ headers → "day_of_week" ∉ headers →
        "day_of_20_day_cycle" ∉ headers →
      v0_0_1.schedules headers rows =
        Except.error (headersErrorMsg headers)) := by
  refine ⟨?_, ?_, ?_, ?_⟩
  · intro h1 _ _
    have heq := schedules_eq_monthly headers rows
      ((any_marker_iff headers "date_of_month").mpr h1)
    refine ⟨heq, ?_⟩
    intro sched hok o ho
    rw [heq] at hok
    obtain ⟨outs, houts, rfl⟩ := except_map_ok mkSchedule _ sched hok
    exact schedulesMonthly_ok_rec headers rows outs houts o ho
  · intro h2 h1 _
    have heq := schedules_eq_weekly headers rows
      (any_marker_false headers "date_of_month" h1)
      ((any_marker_iff headers "day_of_week").mpr h2)
    refine ⟨heq, ?_⟩
    intro sched hok o ho
    rw [heq] at hok
    obtain ⟨outs, houts, rfl⟩ := except_map_ok mkSchedule _ sched hok
    exact schedulesWeekly_ok_rec headers rows outs houts o ho
  · intro h3 h1 h2
    have heq := schedules_eq_periodic headers rows
      (any_marker_false headers "date_of_month" h1)
      (any_marker_false headers "day_of_week" h2)
      ((any_marker_iff headers "day_of_20_day_cycle").mpr h3)
    refine ⟨heq, ?_⟩
    intro sched hok o ho
    rw [heq] at hok
    obtain ⟨outs, houts, rfl⟩ := except_map_ok mkSchedule _ sched hok
    exact schedulesPeriodic_ok_rec headers rows outs houts o ho
  · intro h1 h2 h3
    exact schedules_eq_error headers rows
      (any_marker_false headers "date_of_month" h1)
      (any_marker_false headers "day_of_week" h2)
      (any_marker_false headers "day_of_20_day_cycle" h3)

theorem schedules_header_sniffing_witness :
    (v0_0_1.schedules ["start_time", "finsh_time", "stage", "date_of_month"]
          [["20:00", "22:30", "3", "15"]] =
        (schedulesMonthly ["start_time", "finsh_time", "stage", "date_of_month"]
          [["20:00", "22:30", "3", "15"]]).map mkSchedule
      ∧ ∀ sched,
          v0_0_1.schedules ["start_time", "finsh_time", "stage", "date_of_month"]
            [["20:00", "22:30", "3", "15"]] = Except.ok sched →
          ∀ o ∈ sched.outages, o.recurrence = Recurrence.monthly)
    ∧ v0_0_1.schedules ["start_time", "finsh_time", "stage", "weekday"]
        [["20:00", "22:30", "3", "4"]] =
        Except.error
          (headersErrorMsg ["start_time", "finsh_time", "stage", "weekday"]) :=
  ⟨(schedules_header_sniffing
      ["start_time", "finsh_time", "stage", "date_of_month"]
      [["20:00", "22:30", "3", "15"]]).1
      (by decide) (by decide) (by decide),
    (schedules_header_sniffing ["start_time", "finsh_time", "stage", "weekday"]
      [["20:00", "22:30", "3", "4"]]).2.2.2
      (by decide) (by decide) (by decide)⟩

/-- C10: when several marker columns are present the parser does not fail:
the variant is chosen by the fixed precedence `date_of_month` first, then
`day_of_week`, then `day_of_20_day_cycle`; in particular a header with both
`date_of_month` and `day_of_week` is parsed as the Monthly variant. -/
theorem schedules_marker_precedence (headers : List String)
    (rows : List (List String)) :
    ("date_of_month" ∈ headers →
      v0_0_1.schedules headers rows =
          (schedulesMonthly headers rows).map mkSchedule
        ∧ ∀ sched, v0_0_1.schedules headers rows = Except.ok sched →
            ∀ o ∈ sched.outages, o.recurrence = Recurrence.monthly)
    ∧ ("date_of_month" ∉ headers → "day_of_week" ∈ headers →
      v0_0_1.schedules headers rows =
        (schedulesWeekly headers rows).map mkSchedule)
    ∧ ("date_of_month" ∉ headers → "day_of_week" ∉ headers →
        "day_of_20_day_cycle" ∈ headers →
      v0_0_1.schedules headers rows =
        (schedulesPeriodic headers rows).map mkSchedule) := by
  refine ⟨?_, ?_, ?_⟩
  · intro h1
    have heq := schedules_eq_monthly headers rows
      ((any_marker_iff headers "date_of_month").mpr h1)
    refine ⟨heq, ?_⟩
    intro sched hok o ho
    rw [heq] at hok
    obtain ⟨outs, houts, rfl⟩ := except_map_ok mkSchedule _ sched hok
    exact schedulesMonthly_ok_rec headers rows outs houts o ho
  · intro h1 h2
    exact schedules_eq_weekly headers rows
      (any_marker_false headers "date_of_month" h1)
      ((any_marker_iff headers "day_of_week").mpr h2)
  · intro h1 h2 h3
    exact schedules_eq_periodic headers rows
      (any_marker_false headers "date_of_month" h1)
      (any_marker_false headers "day_of_week" h2)
      ((any_marker_iff headers "day_of_20_day_cycle").mpr h3)

theorem schedules_marker_precedence_witness :
    v0_0_1.schedules
        ["start_time", "finsh_time", "stage", "date_of_month", "day_of_week"]
        [["20:00", "22:30", "3", "15", "4"]] =
      (schedulesMonthly
        ["start_time", "finsh_time", "stage", "date_of_month", "day_of_week"]
        [["20:00", "22:30", "3", "15", "4"]]).map mkSchedule
    ∧ ∀ sched,
        v0_0_1.schedules
          ["start_time", "finsh_time", "stage", "date_of_month", "day_of_week"]
          [["20:00", "22:30", "3", "15", "4"]] = Except.ok sched →
        ∀ o ∈ sched.outages, o.recurrence = Recurrence.monthly :=
  (schedules_marker_precedence
    ["start_time", "finsh_time", "stage", "date_of_month", "day_of_week"]
    [["20:00", "22:30", "3", "15", "4"]]).1 (by decide)

/-- C3: normalization of a raw schedule row enforces the range invariant on
the day field and fails rather than clamping: a Weekly row with
`day_of_week` outside 1..7 fails, a Monthly row with `date_of_month`
outside 1..31 fails, and a Periodic row with `day_of_cycle` greater than
`period_of_cycle` fails; a row satisfying the invariant does not fail on
that field (it succeeds whenever its remaining time/date fields parse). -/
theorem normalization_range_invariants :
    (∀ raw : RawWeeklyShedding,
      (raw.day_of_week < 1 ∨ 7 < raw.day_of_week) →
        recurringOutageOfRawWeekly raw = Except.error weeklyDayMsg)
    ∧ (∀ raw : RawWeeklyShedding, 1 ≤ raw.day_of_week → raw.day_of_week ≤ 7 →
        ∀ st ft, parseTimeHM raw.start_time = some st →
          parseTimeHM raw.finsh_time = some ft →
          recurringOutageOfRawWeekly raw =
            Except.ok ⟨st, ft, raw.stage, Recurrence.weekly, raw.day_of_week⟩)
    ∧ (∀ raw : RawMonthlyShedding,
        (raw.date_of_month < 1 ∨ 31 < raw.date_of_month) →
          recurringOutageOfRawMonthly raw = Except.error monthlyDateMsg)
    ∧ (∀ raw : RawMonthlyShedding, 1 ≤ raw.date_of_month →
        raw.date_of_month ≤ 31 →
        ∀ st ft, parseTimeHM raw.start_time = some st →
          parseTimeHM raw.finsh_time = some ft →
          recurringOutageOfRawMonthly raw =
            Except.ok ⟨st, ft, raw.stage, Recurrence.monthly,
              raw.date_of_month⟩)
    ∧ (∀ raw : RawPeriodicShedding,
        raw.period_of_cycle < raw.day_of_cycle →
          recurringOutageOfRawPeriodic raw =
            Except.error (periodicDayMsg raw.day_of_cycle raw.period_of_cycle))
    ∧ (∀ raw : RawPeriodicShedding, raw.day_of_cycle ≤ raw.period_of_cycle →
        ∀ offset, parseDateYMD raw.start_of_cycle = some offset →
        ∀ st ft, parseTimeHM raw.start_time = some st →
          parseTimeHM raw.finsh_time = some ft →
          recurringOutageOfRawPeriodic raw =
            Except.ok ⟨st, ft, raw.stage,
              Recurrence.periodic offset raw.period_of_cycle,
              raw.day_of_cycle⟩) := by
  refine ⟨?_, ?_, ?_, ?_, ?_, ?_⟩
  · intro raw h
    have hc : (!(0 < raw.day_of_week && raw.day_of_week < 8)) = true := by
      simp
      omega
    unfold recurringOutageOfRawWeekly
    rw [if_pos hc]
  · intro raw h1 h7 st ft hst hft
    have hc : (!(0 < raw.day_of_week && raw.day_of_week < 8)) = false := by
      simp
      omega
    unfold recurringOutageOfRawWeekly
    rw [hc, hst, hft]
    rfl
  · intro raw h
    have hc : (!(0 < raw.date_of_month && raw.date_of_month ≤ 31)) = true := by
      simp
      omega
    unfold recurringOutageOfRawMonthly
    rw [if_pos hc]
  · intro raw h1 h31 st ft hst hft
    have hc : (!(0 < raw.date_of_month && raw.date_of_month ≤ 31)) = false := by
      simp
      omega
    unfold recurringOutageOfRawMonthly
    rw [hc, hst, hft]
    rfl
  · intro raw h
    have hc : (!(raw.day_of_cycle ≤ raw.period_of_cycle : Bool)) = true := by
      simp
      omega
    unfold recurringOutageOfRawPeriodic
    rw [if_pos hc]
  · intro raw hle offset hoff st ft hst hft
    have hc : (!(raw.day_of_cycle ≤ raw.period_of_cycle : Bool)) = false := by
      simp
      omega
    unfold recurringOutageOfRawPeriodic
    rw [hc, hoff, hst, hft]
    rfl

theorem normalization_range_invariants_witness :
    recurringOutageOfRawWeekly ⟨"20:00", "22:30", 2, 0⟩ =
        Except.error weeklyDayMsg
    ∧ recurringOutageOfRawWeekly ⟨"20:00", "22:30", 2, 7⟩ =
        Except.ok ⟨⟨20, 0⟩, ⟨22, 30⟩, 2, Recurrence.weekly, 7⟩
    ∧ recurringOutageOfRawMonthly ⟨"20:00", "22:30", 2, 32⟩ =
        Except.error monthlyDateMsg
    ∧ recurringOutageOfRawMonthly ⟨"20:00", "22:30", 2, 31⟩ =
        Except.ok ⟨⟨20, 0⟩, ⟨22, 30⟩, 2, Recurrence.monthly, 31⟩
    ∧ recurringOutageOfRawPeriodic ⟨"20:00", "22:30", 2, 5, 3, "2023-02-18"⟩ =
        Except.error (periodicDayMsg 5 3)
    ∧ recurringOutageOfRawPeriodic ⟨"20:00", "22:30", 2, 3, 20, "2023-02-18"⟩ =
        Except.ok ⟨⟨20, 0⟩, ⟨22, 30⟩, 2,
          Recurrence.periodic ⟨2023, 2, 18⟩ 20, 3⟩ :=
  ⟨normalization_range_invariants.1 ⟨"20:00", "22:30", 2, 0⟩ (by decide),
    normalization_range_invariants.2.1 ⟨"20:00", "22:30", 2, 7⟩ (by decide)
      (by decide) ⟨20, 0⟩ ⟨22, 30⟩ (by decide) (by decide),
    normalization_range_invariants.2.2.1 ⟨"20:00", "22:30", 2, 32⟩ (by decide),
    normalization_range_invariants.2.2.2.1 ⟨"20:00", "22:30", 2, 31⟩
      (by decide) (by decide) ⟨20, 0⟩ ⟨22, 30⟩ (by decide) (by decide),
    normalization_range_invariants.2.2.2.2.1
      ⟨"20:00", "22:30", 2, 5, 3, "2023-02-18"⟩ (by decide),
    normalization_range_invariants.2.2.2.2.2
      ⟨"20:00", "22:30", 2, 3, 20, "2023-02-18"⟩ (by decide) ⟨2023, 2, 18⟩
      (by decide) ⟨20, 0⟩ ⟨22, 30⟩ (by decide) (by decide)⟩

theorem matchFrom_dotstar (s : List Char) :
    matchFrom [(RegexAtom.dot, true)] s = true := by
  cases s with
  | nil => simp [matchFrom]
  | cons c cs => simp [matchFrom]

theorem regexIsMatch_dotstar (s : String) :
    regexIsMatch [(RegexAtom.dot, true)] s = true := by
  unfold regexIsMatch
  cases s.data with
  | nil => simp [searchFrom, matchFrom_dotstar]
  | cons c cs => simp [searchFrom, matchFrom_dotstar]

/-- C4: `list_areas` with the match-everything pattern returns exactly the
distinct `area_name` values of the feed, sorted ascending with no
duplicates, and `list_all_areas` is the same function applied to `.*`. -/
theorem list_areas_matchall (feed : List PowerOutage) :
    v0_0_1.list_all_areas feed = v0_0_1.list_areas feed ".*"
    ∧ ∃ l, v0_0_1.list_areas feed ".*" = Except.ok l
        ∧ l.Sorted (fun a b => a ≤ b)
        ∧ l.Nodup
        ∧ ∀ s, s ∈ l ↔ s ∈ feed.map (fun o => o.area_name) := by
  refine ⟨rfl, ?_⟩
  have hre : regexParse ".*".data = some [(RegexAtom.dot, true)] := by decide
  have hfilter : feed.filter
      (fun outage => regexIsMatch [(RegexAtom.dot, true)] outage.area_name) =
      feed :=
    List.filter_eq_self.mpr (fun o _ => regexIsMatch_dotstar o.area_name)
  refine ⟨sortStrings ((feed.map (fun o => o.area_name)).dedup),
    ?_, ?_, ?_, ?_⟩
  · unfold v0_0_1.list_areas
    simp only [hre]
    rw [hfilter]
  · exact List.sorted_insertionSort _ _
  · exact ((List.perm_insertionSort _ _).nodup_iff).mpr (List.nodup_dedup _)
  · intro s
    unfold sortStrings
    rw [(List.perm_insertionSort _ _).mem_iff, List.mem_dedup]

theorem charOfNat_toNat_in_range (n : Nat) (h1 : 97 ≤ n) (h2 : n ≤ 122) :
    (Char.ofNat n).toNat = n := by
  interval_cases n <;> decide

theorem preprocessChar_idem (c : Char) :
    preprocessChar (preprocessChar c) = preprocessChar c := by
  by_cases hw : isWordChar c = true
  · by_cases hup : 65 ≤ c.toNat ∧ c.toNat ≤ 90
    · have hlow : preprocessChar c = Char.ofNat (c.toNat + 32) := by
        unfold preprocessChar asciiToLower
        rw [if_pos hw, if_pos (by simp; omega)]
      have htn : (Char.ofNat (c.toNat + 32)).toNat = c.toNat + 32 :=
        charOfNat_toNat_in_range _ (by omega) (by omega)
      have hw2 : isWordChar (Char.ofNat (c.toNat + 32)) = true := by
        unfold isWordChar
        rw [htn]
        simp
        omega
      rw [hlow]
      unfold preprocessChar asciiToLower
      rw [if_pos hw2, if_neg (by rw [htn]; simp; omega)]
    · have h1 : preprocessChar c = c := by
        unfold preprocessChar asciiToLower
        rw [if_pos hw, if_neg (by simp; omega)]
      rw [h1]
      exact h1
  · have h1 : preprocessChar c = ' ' := by
      unfold preprocessChar
      rw [if_neg hw]
    rw [h1]
    decide

theorem preprocess_idem (q : String) :
    preprocess (preprocess q) = preprocess q := by
  unfold preprocess
  congr 1
  show List.map preprocessChar (List.map preprocessChar q.data) =
    List.map preprocessChar q.data
  rw [List.map_map]
  exact List.map_congr_left (fun a _ => preprocessChar_idem a)

/-- C5: for every matcher, feed and query, `fuzzy_search` returns a
sequence sorted descending (non-increasing) by score; every element comes
from a feed area name whose normalized form has a fuzzy match (with that
score) against the normalized query, and every element's payload is an
`Area` with only `name` populated: id and schedule are zero, aliases empty,
province and municipality absent. -/
theorem fuzzy_search_ranked_shape (matcher : String → String → Option Int)
    (feed : List PowerOutage) (query : String) :
    (v0_0_1.fuzzy_search matcher feed query).Pairwise
        (fun a b => b.score ≤ a.score)
    ∧ ∀ sr ∈ v0_0_1.fuzzy_search matcher feed query,
        matcher (preprocess sr.result.name) (preprocess query) = some sr.score
        ∧ sr.result.name ∈ feed.map (fun o => o.area_name)
        ∧ sr.result.id = ⟨0⟩ ∧ sr.result.schedule = ⟨0⟩
        ∧ sr.result.aliases = [] ∧ sr.result.province = none
        ∧ sr.result.municipality = none := by
  constructor
  · show (List.insertionSort scoreLE _).reverse.Pairwise
      (fun a b => b.score ≤ a.score)
    rw [List.pairwise_reverse]
    exact List.sorted_insertionSort scoreLE _
  · intro sr hsr
    have hsr' : sr ∈ List.insertionSort scoreLE
        (((feed.map (fun o => o.area_name)).dedup).filterMap
          (fun area_name =>
            (matcher (preprocess area_name)
                (preprocess (preprocess query))).map (fun score =>
              ⟨score, ⟨area_name, ⟨0⟩, ⟨0⟩, [], none, none⟩⟩))) := by
      rw [← List.mem_reverse]
      exact hsr
    rw [(List.perm_insertionSort scoreLE _).mem_iff] at hsr'
    obtain ⟨name, hname, hmap⟩ := List.mem_filterMap.mp hsr'
    obtain ⟨score, hscore, heq⟩ := Option.map_eq_some'.mp hmap
    rw [preprocess_idem] at hscore
    subst heq
    exact ⟨hscore, List.mem_dedup.mp hname, rfl, rfl, rfl, rfl, rfl⟩

theorem fuzzy_search_ranked_shape_witness :
    (fun (_ _ : String) => some (7 : Int))
        (preprocess "western-cape-stellenbosch") (preprocess "stellenbosch") =
        some (7 : Int)
    ∧ "western-cape-stellenbosch" ∈
        ([⟨"western-cape-stellenbosch", 1, ⟨0, 0⟩, ⟨0, 0⟩, "s"⟩] :
          List PowerOutage).map (fun o => o.area_name)
    ∧ (⟨0⟩ : AreaId) = ⟨0⟩ ∧ (⟨0⟩ : ScheduleId) = ⟨0⟩
    ∧ ([] : List String) = [] ∧ (none : Option Province) = none
    ∧ (none : Option Municipality) = none :=
  (fuzzy_search_ranked_shape (fun _ _ => some 7)
    [⟨"western-cape-stellenbosch", 1, ⟨0, 0⟩, ⟨0, 0⟩, "s"⟩] "stellenbosch").2
    ⟨7, ⟨"western-cape-stellenbosch", ⟨0⟩, ⟨0⟩, [], none, none⟩⟩ (by decide)

/-- C9 counterexample: the fuzzy-search result is not a function of the
feed alone.  The `HashSet` deduplication step has unspecified iteration
order (`validDedup` characterizes the orders it may produce for a fixed
feed), and because the sort compares scores only, two valid orders of the
same feed yield different result sequences when two candidates tie on
score: here both candidates match with score 5 and the two runs return the
two tied results in opposite orders, so the JSON bodies differ. -/
theorem fuzzy_search_tie_order_counterexample :
    validDedup
        [⟨"aa", 1, ⟨0, 0⟩, ⟨0, 0⟩, "s"⟩, ⟨"bb", 1, ⟨0, 0⟩, ⟨0, 0⟩, "s"⟩]
        ["aa", "bb"]
    ∧ validDedup
        [⟨"aa", 1, ⟨0, 0⟩, ⟨0, 0⟩, "s"⟩, ⟨"bb", 1, ⟨0, 0⟩, ⟨0, 0⟩, "s"⟩]
        ["bb", "aa"]
    ∧ v0_0_1.fuzzy_searchWithOrder (fun _ _ => some 5) ["aa", "bb"] "q" ≠
        v0_0_1.fuzzy_searchWithOrder (fun _ _ => some 5) ["bb", "aa"] "q" := by
  refine ⟨?_, ?_, by decide⟩ <;>
    (unfold validDedup; rw [← List.isPerm_iff]; decide)

/-- C9 amended: with the upstream feed fixed, `outages`, `schedules` and
`list_areas` are deterministic — in particular the sorted deduplicated
area listing is independent of the unspecified set-iteration order — and
`fuzzy_search` is deterministic up to the relative order of equal-score
ties: any two valid dedup orders give result sequences that are
permutations of each other (same results, same scores), though the order
within a score tie may differ between two calls. -/
theorem ops_deterministic_up_to_fuzzy_ties
    (matcher : String → String → Option Int) (feed : List PowerOutage)
    (query : String) (names1 names2 : List String)
    (h1 : validDedup feed names1) (h2 : validDedup feed names2) :
    sortStrings names1 = sortStrings names2
    ∧ (v0_0_1.fuzzy_searchWithOrder matcher names1 query).Perm
        (v0_0_1.fuzzy_searchWithOrder matcher names2 query) := by
  have hperm : names1.Perm names2 := h1.trans h2.symm
  constructor
  · show List.insertionSort (fun a b => a ≤ b) names1 =
      List.insertionSort (fun a b => a ≤ b) names2
    exact List.eq_of_perm_of_sorted
      (((List.perm_insertionSort _ names1).trans hperm).trans
        (List.perm_insertionSort _ names2).symm)
      (List.sorted_insertionSort _ _) (List.sorted_insertionSort _ _)
  · have hfm := hperm.filterMap (fun area_name =>
      (matcher (preprocess area_name)
          (preprocess (preprocess query))).map (fun score =>
        (⟨score, ⟨area_name, ⟨0⟩, ⟨0⟩, [], none, none⟩⟩ : SearchResult Area)))
    show (List.insertionSort scoreLE _).reverse.Perm
      (List.insertionSort scoreLE _).reverse
    exact (List.reverse_perm _).trans
      ((List.perm_insertionSort _ _).trans
        (hfm.trans
          ((List.perm_insertionSort _ _).symm.trans
            (List.reverse_perm _).symm)))

theorem ops_deterministic_up_to_fuzzy_ties_witness :
    sortStrings ["bb", "aa"] = sortStrings ["aa", "bb"]
    ∧ (v0_0_1.fuzzy_searchWithOrder (fun _ _ => some 5) ["bb", "aa"] "q").Perm
        (v0_0_1.fuzzy_searchWithOrder (fun _ _ => some 5) ["aa", "bb"] "q") :=
  ops_deterministic_up_to_fuzzy_ties (fun _ _ => some 5)
    [⟨"aa", 1, ⟨0, 0⟩, ⟨0, 0⟩, "s"⟩, ⟨"bb", 1, ⟨0, 0⟩, ⟨0, 0⟩, "s"⟩] "q"
    ["bb", "aa"] ["aa", "bb"]
    (by unfold validDedup; rw [← List.isPerm_iff]; decide)
    (by unfold validDedup; rw [← List.isPerm_iff]; decide)
